import Mathlib

/-!
# Verification of the TrailTrack route-geometry and persistence engine

This development embeds the route-geometry, distance-accumulation,
marker-placement, persistence-normalization and import/export logic of
`app.js` (class `TrailTrack`) in Lean 4 and proves, corrects or refutes the
specification's claims about it.

Modelling conventions:

* JavaScript numbers are modelled as `JNum`: rationals extended with the
  IEEE special values `NaN`, `Infinity` and `-Infinity`.  Binary-float
  rounding is not modelled (arithmetic is exact); the IEEE special values
  are modelled because the code's truthiness tests (`x || 0`) and
  comparisons distinguish them.  Negative zero is identified with zero.
* JavaScript values that reach the functions under study are modelled by
  `JSVal` (number, string or `undefined`).
* The Leaflet map widget is absent (`this.map = null`), as in the
  repository's own unit tests, so `calculateSegmentDistance` takes the
  haversine branch; the two-point distance function itself is kept as an
  explicit parameter `dist` so that statements cover both the haversine
  and the `map.distance` code path (both apply a pure two-point function
  to the two normalized endpoints).
* The real-valued haversine formula itself is modelled separately over `ℝ`
  (`haversineDistance`), since it uses transcendental functions.
-/

/-- A JavaScript number: a rational, or one of the IEEE special values. -/
inductive JNum where
  | fin : ℚ → JNum
  | nan : JNum
  | inf : JNum
  | ninf : JNum
deriving DecidableEq, Repr

/-- A JavaScript value as seen by the functions under study:
a number, a string, or `undefined`. -/
inductive JSVal where
  | jnum : JNum → JSVal
  | jstr : String → JSVal
  | jundef : JSVal
deriving DecidableEq, Repr

namespace JNum

/-- JavaScript `+` on numbers (`NaN` propagates, `Infinity + -Infinity = NaN`). -/
def add : JNum → JNum → JNum
  | fin a, fin b => fin (a + b)
  | nan, _ => nan
  | _, nan => nan
  | inf, ninf => nan
  | ninf, inf => nan
  | inf, _ => inf
  | _, inf => inf
  | ninf, _ => ninf
  | _, ninf => ninf

instance instAdd : Add JNum := ⟨add⟩

/-- JavaScript `-` on numbers. -/
def sub : JNum → JNum → JNum
  | fin a, fin b => fin (a - b)
  | nan, _ => nan
  | _, nan => nan
  | inf, inf => nan
  | ninf, ninf => nan
  | inf, _ => inf
  | _, inf => ninf
  | ninf, _ => ninf
  | _, ninf => inf

instance instSub : Sub JNum := ⟨sub⟩

/-- JavaScript `*` on numbers (`Infinity * 0 = NaN`). -/
def mul : JNum → JNum → JNum
  | fin a, fin b => fin (a * b)
  | nan, _ => nan
  | _, nan => nan
  | inf, inf => inf
  | inf, ninf => ninf
  | ninf, inf => ninf
  | ninf, ninf => inf
  | inf, fin b => if b = 0 then nan else if 0 < b then inf else ninf
  | fin a, inf => if a = 0 then nan else if 0 < a then inf else ninf
  | ninf, fin b => if b = 0 then nan else if 0 < b then ninf else inf
  | fin a, ninf => if a = 0 then nan else if 0 < a then ninf else inf

instance instMul : Mul JNum := ⟨mul⟩

/-- JavaScript `/` on numbers (`x / 0` gives a signed infinity, `0 / 0 = NaN`). -/
def div : JNum → JNum → JNum
  | fin a, fin b =>
      if b = 0 then (if a = 0 then nan else if 0 < a then inf else ninf)
      else fin (a / b)
  | nan, _ => nan
  | _, nan => nan
  | inf, inf => nan
  | inf, ninf => nan
  | ninf, inf => nan
  | ninf, ninf => nan
  | inf, fin b => if 0 ≤ b then inf else ninf
  | ninf, fin b => if 0 ≤ b then ninf else inf
  | fin _, inf => fin 0
  | fin _, ninf => fin 0

instance instDiv : Div JNum := ⟨div⟩

/-- JavaScript `<` on numbers: any comparison involving `NaN` is false. -/
def jlt : JNum → JNum → Bool
  | fin a, fin b => decide (a < b)
  | nan, _ => false
  | _, nan => false
  | inf, _ => false
  | _, inf => true
  | ninf, ninf => false
  | ninf, _ => true
  | _, ninf => false

/-- JavaScript `<=` on numbers: any comparison involving `NaN` is false. -/
def jle : JNum → JNum → Bool
  | fin a, fin b => decide (a ≤ b)
  | nan, _ => false
  | _, nan => false
  | ninf, _ => true
  | _, ninf => false
  | _, inf => true
  | inf, _ => false

/-- JavaScript `x === 0` for a number `x` (false for `NaN` and infinities). -/
def isZero : JNum → Bool
  | fin a => decide (a = 0)
  | _ => false

/-- `Number.isFinite`. -/
def isFin : JNum → Bool
  | fin _ => true
  | _ => false

/-- JavaScript truthiness of a number: `0` and `NaN` are falsy. -/
def truthy : JNum → Bool
  | fin a => decide (a ≠ 0)
  | nan => false
  | _ => true

end JNum

open JNum (fin nan inf ninf)

/-- Numeric value of a decimal digit character. -/
def digitVal (c : Char) : ℕ :=
  if c = '0' then 0 else if c = '1' then 1 else if c = '2' then 2
  else if c = '3' then 3 else if c = '4' then 4 else if c = '5' then 5
  else if c = '6' then 6 else if c = '7' then 7 else if c = '8' then 8
  else 9

/-- Digits of a decimal literal:
`digitsVal ds = (value as a natural number, number of digits)`. -/
def digitsVal (cs : List Char) : ℕ × ℕ :=
  cs.foldl (fun acc c => (acc.1 * 10 + digitVal c, acc.2 + 1)) (0, 0)

/-- Parse the mantissa-and-exponent body of a JavaScript decimal number
literal (after sign removal): `digits [. digits] [e|E [sign] digits]` or
`. digits …`.  Returns the exact rational value. -/
def parseDecBody (cs : List Char) : Option ℚ :=
  let ip := cs.takeWhile Char.isDigit
  let rest := cs.drop ip.length
  let (fp, rest2) :=
    match rest with
    | '.' :: t =>
        let f := t.takeWhile Char.isDigit
        (f, t.drop f.length)
    | _ => ([], rest)
  if ip.isEmpty ∧ fp.isEmpty then none else
  let mant : ℚ := (digitsVal ip).1 + (digitsVal fp).1 / (10 : ℚ) ^ (digitsVal fp).2
  match rest2 with
  | [] => some mant
  | 'e' :: t => parseExp mant t
  | 'E' :: t => parseExp mant t
  | _ => none
where
  /-- Parse the (signed) exponent part and scale the mantissa. -/
  parseExp (mant : ℚ) (t : List Char) : Option ℚ :=
    let (neg, ds) :=
      match t with
      | '-' :: u => (true, u)
      | '+' :: u => (false, u)
      | _ => (false, t)
    if ds.isEmpty ∨ ¬ ds.all Char.isDigit then none
    else
      let e := (digitsVal ds).1
      some (if neg then mant / (10 : ℚ) ^ e else mant * (10 : ℚ) ^ e)

/-- Whitespace trimming as JavaScript string coercion performs it. -/
def jsTrim (s : String) : String :=
  String.mk (((s.toList.dropWhile Char.isWhitespace).reverse.dropWhile
    Char.isWhitespace).reverse)

/-- JavaScript `Number(string)` coercion, restricted to decimal literals
(whitespace trimming, the empty string giving `0`, optional sign, decimal
mantissa with optional fraction and exponent, and the `Infinity` spellings);
hexadecimal/octal/binary literals are not modelled, everything else is `NaN`. -/
def parseNumber (s : String) : JNum :=
  let t := jsTrim s
  if t = "" then fin 0
  else if t = "Infinity" ∨ t = "+Infinity" then inf
  else if t = "-Infinity" then ninf
  else
    match t.toList with
    | '-' :: cs => (parseDecBody cs).elim nan (fun q => fin (-q))
    | '+' :: cs => (parseDecBody cs).elim nan fin
    | cs => (parseDecBody cs).elim nan fin

/-- JavaScript `Number(x)` coercion of a value. -/
def toNumber : JSVal → JNum
  | .jnum n => n
  | .jstr s => parseNumber s
  | .jundef => nan

/-- Decimal-expansion helper for printing a fraction `num/den`, with fuel. -/
def fracDigitsAux : ℕ → ℕ → ℕ → List Char
  | 0, _, _ => []
  | _, 0, _ => []
  | fuel + 1, rem, den =>
      let d := rem * 10 / den
      Char.ofNat ('0'.toNat + d) :: fracDigitsAux fuel (rem * 10 % den) den

/-- JavaScript `String(x)` for a finite number.  Exact for integers (the only
case the repository's data exercises); for non-integral rationals this is a
truncated decimal expansion, modelling the host's decimal rendering. -/
def qToString (q : ℚ) : String :=
  let sign := if q < 0 then "-" else ""
  let n := q.num.natAbs
  let d := q.den
  if q.den = 1 then sign ++ Nat.repr n
  else sign ++ Nat.repr (n / d) ++ "." ++ String.mk (fracDigitsAux 20 (n % d) d)

/-- JavaScript `String(x)` coercion of a value. -/
def jsToString : JSVal → String
  | .jstr s => s
  | .jnum (fin q) => qToString q
  | .jnum nan => "NaN"
  | .jnum inf => "Infinity"
  | .jnum ninf => "-Infinity"
  | .jundef => "undefined"

/-- JavaScript truthiness of a value. -/
def jsTruthy : JSVal → Bool
  | .jnum n => n.truthy
  | .jstr s => decide (s ≠ "")
  | .jundef => false

/-- JavaScript `a || b`. -/
def jsOr (a b : JSVal) : JSVal := if jsTruthy a then a else b

/-!
## Point representations and normalization (`TrailTrack.normalizeLatLng`)
-/

/-- A point representation as the engine receives and stores it: a JavaScript
array of values, an object carrying (possibly absent) `lat`/`lng` properties,
or any other value (`null`, a primitive, an object without those fields). -/
inductive PointInput where
  | parr : List JSVal → PointInput
  | pobj : JSVal → JSVal → PointInput
  | pnull : PointInput
deriving DecidableEq, Repr

instance : Inhabited PointInput := ⟨.pnull⟩

/-- A canonical `{lat, lng}` pair of JavaScript numbers. -/
structure NormPoint where
  lat : JNum
  lng : JNum
deriving DecidableEq, Repr

/-- `TrailTrack.normalizeLatLng` (src/app.js:1157-1174): an array with at
least two entries yields `{lat: Number(e0), lng: Number(e1)}`; an object
whose `lat` and `lng` properties are both numbers (in the `typeof` sense,
which includes `NaN` and the infinities) is returned as such; everything
else yields `null` (modelled as `none`). -/
def normalizeLatLng : PointInput → Option NormPoint
  | .parr (a :: b :: _) => some ⟨toNumber a, toNumber b⟩
  | .parr _ => none
  | .pobj (.jnum a) (.jnum b) => some ⟨a, b⟩
  | .pobj _ _ => none
  | .pnull => none

/-!
## Segment distance and route state
-/

/-- `TrailTrack.calculateSegmentDistance` (src/app.js:919-942), parametrized
by the two-point distance function `dist` applied to the two normalized
endpoints: `dist` is `map.distance` when a Leaflet map is present and
`TrailTrack.haversineDistance` otherwise (the spec's reference path; the
repository's unit tests run in this configuration).  If either endpoint
fails to normalize the segment distance is the number `0`. -/
def calculateSegmentDistance (dist : NormPoint → NormPoint → JNum)
    (startPoint endPoint : PointInput) : JNum :=
  match normalizeLatLng startPoint, normalizeLatLng endPoint with
  | some s, some e => dist s e
  | _, _ => fin 0

/-- The domain state of the route under construction: the `points`,
`cumulativeDistances` and `distance` fields of `this.currentRoute`
(rendering handles — polyline, markers — are omitted; `cumulativeDistances`
is kept as a list, the code's `if (!…cumulativeDistances) { … = [] }` guard
making a missing array equivalent to an empty one). -/
structure Route where
  points : List PointInput
  cumulativeDistances : List JNum
  distance : JNum
deriving DecidableEq, Repr

/-- The route created by `startRouteCreation` (src/app.js:588-600):
no points, no cumulative distances, distance `0`. -/
def emptyRoute : Route := ⟨[], [], fin 0⟩

/-- An argument to `addPointToRoute`: a JavaScript array, a Leaflet-style
object whose `lat` and `lng` properties are numbers, or anything else
(which the function rejects with a console error). -/
inductive LatLngInput where
  | larr : List JSVal → LatLngInput
  | lobj : JNum → JNum → LatLngInput
  | linvalid : LatLngInput
deriving DecidableEq, Repr

/-- The stored point `addPointToRoute` derives from its argument:
an array is stored as-is, a `{lat, lng}` object becomes `[lat, lng]`,
and an invalid argument is rejected. -/
def toStoredPoint : LatLngInput → Option PointInput
  | .larr xs => some (.parr xs)
  | .lobj a b => some (.parr [.jnum a, .jnum b])
  | .linvalid => none

/-- `cumulativeDistances[cumulativeDistances.length - 1] || 0`
(src/app.js:677): the last entry, with a falsy value — a missing entry,
`0` or `NaN` — replaced by the number `0`. -/
def lastOrZero (l : List JNum) : JNum :=
  match l.getLast? with
  | some v => if v.truthy then v else fin 0
  | none => fin 0

/-- `TrailTrack.addPointToRoute` (src/app.js:653-717), restricted to the
domain fields: push the stored point; a first point resets
`cumulativeDistances` to `[0]` and `distance` to `0`; otherwise push
`lastCumulative + segmentDistance(previous, new)` and set `distance` to it. -/
def addPointToRoute (dist : NormPoint → NormPoint → JNum) (r : Route)
    (latlng : LatLngInput) : Route :=
  match toStoredPoint latlng with
  | none => r
  | some point =>
    match r.points.getLast? with
    | none => { r with points := r.points ++ [point],
                       cumulativeDistances := [fin 0], distance := fin 0 }
    | some prev =>
        let seg := calculateSegmentDistance dist prev point
        let c := lastOrZero r.cumulativeDistances + seg
        { r with points := r.points ++ [point],
                 cumulativeDistances := r.cumulativeDistances ++ [c],
                 distance := c }

/-- `TrailTrack.undoLastPoint` (src/app.js:719-766), restricted to the
domain fields: a no-op when there are no points (the guard also covers the
no-current-route and not-drawing cases); otherwise pop the last point and
(when present) the last cumulative entry, then set `distance` to the new
last cumulative entry, or to `0` (clearing the array) when none remains. -/
def undoLastPoint (r : Route) : Route :=
  if r.points = [] then r
  else
    let points' := r.points.dropLast
    let cum' := r.cumulativeDistances.dropLast
    { points := points',
      cumulativeDistances := cum',
      distance := cum'.getLastD (fin 0) }

/-- The cumulative-distance array `TrailTrack.rebuildCumulativeDistances`
(src/app.js:944-973) computes: entry `0` is `0`, and each later entry adds
the segment distance from the previous point to the running total.
`rebuildAux prev total rest` produces the entries for `rest`, where `prev`
is the point before `rest` and `total` the running total up to `prev`. -/
def rebuildAux (dist : NormPoint → NormPoint → JNum) :
    PointInput → JNum → List PointInput → List JNum
  | _, _, [] => []
  | prev, total, p :: rest =>
      let t := total + calculateSegmentDistance dist prev p
      t :: rebuildAux dist p t rest

/-- The full cumulative-distance array of `rebuildCumulativeDistances`
for a point list. -/
def rebuildCumList (dist : NormPoint → NormPoint → JNum) :
    List PointInput → List JNum
  | [] => []
  | p :: rest => fin 0 :: rebuildAux dist p (fin 0) rest

/-- The running total `rebuildCumulativeDistances` finishes with
(and stores in `route.distance`). -/
def rebuildTotal (dist : NormPoint → NormPoint → JNum)
    (points : List PointInput) : JNum :=
  (rebuildCumList dist points).getLast?.getD (fin 0)

/-- `TrailTrack.rebuildCumulativeDistances` (src/app.js:944-973) as a state
transformer: replaces `cumulativeDistances` with the from-scratch array and
`distance` with the final running total. -/
def rebuildCumulativeDistances (dist : NormPoint → NormPoint → JNum)
    (r : Route) : Route :=
  { r with cumulativeDistances := rebuildCumList dist r.points,
           distance := rebuildTotal dist r.points }

/-- One drawing interaction: a map click / GPS fix (`addPointToRoute`) or an
undo button press (`undoLastPoint`). -/
inductive RouteOp where
  | add : LatLngInput → RouteOp
  | undo : RouteOp
deriving DecidableEq, Repr

/-- Apply a sequence of drawing interactions to a route state. -/
def applyOps (dist : NormPoint → NormPoint → JNum) (r : Route)
    (ops : List RouteOp) : Route :=
  ops.foldl
    (fun s op =>
      match op with
      | .add latlng => addPointToRoute dist s latlng
      | .undo => undoLastPoint s) r

/-!
## The incremental state stays in sync with the rebuild
-/

/-- The incrementally maintained cumulative array equals the from-scratch
rebuild of the current point list, and every entry is a finite number. -/
def SyncedFin (dist : NormPoint → NormPoint → JNum) (r : Route) : Prop :=
  r.cumulativeDistances = rebuildCumList dist r.points ∧
  ∀ x ∈ r.cumulativeDistances, x.isFin = true

/-- A trivial all-finite two-point distance function, used to instantiate
parametric statements. -/
def constDist : NormPoint → NormPoint → JNum := fun _ _ => fin 1

/-- A concrete two-point distance function with the same NaN behavior as
`haversineDistance` run on malformed coordinates: finite (taxicab, scaled)
on finite coordinates, `NaN` as soon as any coordinate is `NaN` (or
infinite). -/
def mockDist : NormPoint → NormPoint → JNum := fun s e =>
  match s.lat, s.lng, e.lat, e.lng with
  | fin a, fin b, fin c, fin d => fin (|c - a| + |d - b|)
  | _, _, _, _ => nan

/-- A drawing sequence in which the second clicked point is a malformed
array (`['a', 'x']`, accepted by `addPointToRoute` because it is an array,
but normalizing to `NaN` coordinates). -/
def ops1 : List RouteOp :=
  [.add (.larr [.jnum (fin 0), .jnum (fin 0)]),
   .add (.larr [.jstr "a", .jstr "x"]),
   .add (.lobj (fin 0) (fin 1)),
   .add (.lobj (fin 0) (fin 2))]

/-- A well-formed drawing sequence: three clicks and one undo. -/
def ops0 : List RouteOp :=
  [.add (.lobj (fin 0) (fin 0)), .add (.lobj (fin 0) (fin 1)), .undo,
   .add (.lobj (fin 1) (fin 1))]

/-!
## The cumulative-distance invariant of the spec (claim C2)
-/

/-- `route.distance` equals the last cumulative entry, or `0` when the route
has fewer than 2 points. -/
def distanceOK (r : Route) : Prop :=
  r.distance =
    if r.points.length < 2 then fin 0
    else r.cumulativeDistances.getLastD (fin 0)

/-- The invariant of claim C2, exactly as stated: `cumulativeDistances` has
the same length as `points`, entry `0` is `0`, entry `i` is entry `i-1`
plus the segment distance between points `i-1` and `i`, and
`route.distance` is the last entry (or `0` below 2 points). -/
def RouteInv (dist : NormPoint → NormPoint → JNum) (r : Route) : Prop :=
  r.cumulativeDistances.length = r.points.length ∧
  (r.points ≠ [] → r.cumulativeDistances.getD 0 nan = fin 0) ∧
  (∀ i, 1 ≤ i → i < r.points.length →
    r.cumulativeDistances.getD i nan =
      r.cumulativeDistances.getD (i - 1) nan +
        calculateSegmentDistance dist (r.points.getD (i - 1) .pnull)
          (r.points.getD i .pnull)) ∧
  distanceOK r

/-- A well-formed two-point route state satisfying the invariant for
`constDist`. -/
def r2 : Route :=
  ⟨[.parr [.jnum (fin 0), .jnum (fin 0)], .parr [.jnum (fin 0), .jnum (fin 1)]],
   [fin 0, fin 1], fin 1⟩

/-- A route state whose second point is the malformed array `['a', 'x']`:
it satisfies the claim's invariant (the `NaN` entries obey the recurrence),
with a `NaN` last cumulative entry. -/
def badRoute : Route :=
  ⟨[.parr [.jnum (fin 0), .jnum (fin 0)], .parr [.jstr "a", .jstr "x"],
    .parr [.jnum (fin 0), .jnum (fin 1)]],
   [fin 0, nan, nan], nan⟩

/-!
## Route finalization (`TrailTrack.finishRouteCreation`, claim C8)
-/

/-- The kind of a user-facing toast notification. -/
inductive ToastKind where
  | error | success | info
deriving DecidableEq, Repr

/-- The observable outcome of `finishRouteCreation`: the current route
afterwards, the route handed to the persistence layer (`saveRoute`), if
any, and the toast shown. -/
structure FinishResult where
  current : Option Route
  saved : Option Route
  toast : String
  toastKind : ToastKind
deriving DecidableEq, Repr

/-- `TrailTrack.finishRouteCreation` (src/app.js:778-856), restricted to
the domain state (name normalization and DOM/layer cleanup are
presentation and omitted; `elevationGain` is set to the constant `0` and
has no bearing on the claims).  The guard
`!this.currentRoute || this.currentRoute.points.length < 2` shows the
error toast and returns without touching the route or calling `saveRoute`;
otherwise the route's distances are rebuilt from scratch, the route is
handed to `saveRoute`, and the drawing state is cleared. -/
def finishRouteCreation (dist : NormPoint → NormPoint → JNum)
    (current : Option Route) : FinishResult :=
  match current with
  | none => ⟨none, none, "Route needs at least 2 points", .error⟩
  | some r =>
      if r.points.length < 2 then
        ⟨some r, none, "Route needs at least 2 points", .error⟩
      else
        let r1 := rebuildCumulativeDistances dist r
        ⟨none, some r1, "Route saved successfully", .success⟩

/-!
## Interval-marker placement (`getLatLngAtDistance` /
`updateKilometerMarkers`, claim C5)
-/

/-- The interpolation step shared by the marker search and the spec's rule
(§4.4): with segment endpoints `pprev`, `p` at cumulative distances
`cprev`, `c`, return `p` when the span is `0`, otherwise interpolate both
coordinates by `ratio = (target - cprev) / span`; `none` when either
endpoint fails to normalize. -/
def interpAux (cprev : JNum) (pprev : PointInput) (c : JNum)
    (p : PointInput) (target : JNum) : Option NormPoint :=
  match normalizeLatLng pprev, normalizeLatLng p with
  | some s, some e =>
      let span := c - cprev
      if span.isZero then some e
      else
        let frac := (target - cprev) / span
        some ⟨s.lat + (e.lat - s.lat) * frac,
              s.lng + (e.lng - s.lng) * frac⟩
  | _, _ => none

/-- The `for (let i = 1; …)` search of `getLatLngAtDistance`
(src/app.js:1127-1151): skip while `cumulativeDistances[i] < target`
(a `NaN` entry therefore stops the search) and while an endpoint fails to
normalize; on the found segment return the interpolation.  `cprev`/`pprev`
are entry and point `i - 1`, the lists are the tails from `i` on;
`none` means the loop ran out. -/
def markerLoop (target : JNum) :
    JNum → PointInput → List JNum → List PointInput → Option NormPoint
  | cprev, pprev, c :: cs, p :: ps =>
      if JNum.jlt c target then markerLoop target c p cs ps
      else
        match interpAux cprev pprev c p target with
        | some pos => some pos
        | none => markerLoop target c p cs ps
  | _, _, _, _ => none

/-- The on-the-fly fallback of `getLatLngAtDistance` (src/app.js:1099-1119),
used when the cumulative array's length does not match the points:
accumulate segment distances until the target is covered, then interpolate
(ratio `0` for a zero-length segment); a normalization failure on the found
segment returns `null` outright (`some none`); `none` means the loop ran
out. -/
def fallbackLoop (dist : NormPoint → NormPoint → JNum) (target : JNum) :
    JNum → PointInput → List PointInput → Option (Option NormPoint)
  | accumulated, prev, p :: ps =>
      let seg := calculateSegmentDistance dist prev p
      if JNum.jle target (accumulated + seg) then
        some (match normalizeLatLng prev, normalizeLatLng p with
          | some s, some e =>
              let frac := if seg.isZero then fin 0
                else (target - accumulated) / seg
              some ⟨s.lat + (e.lat - s.lat) * frac,
                    s.lng + (e.lng - s.lng) * frac⟩
          | _, _ => none)
      else fallbackLoop dist target (accumulated + seg) p ps
  | _, _, [] => none

/-- `TrailTrack.getLatLngAtDistance` (src/app.js:1088-1155): `null` below 2
points; with a matching cumulative array, `points[0]` for a non-positive
target, else the first-index search falling back to the last point; with a
mismatched cumulative array, the on-the-fly accumulation.  (The Leaflet
`L.latLng` wrapper is the identity on the coordinate pair.) -/
def getLatLngAtDistance (dist : NormPoint → NormPoint → JNum)
    (points : List PointInput) (target : JNum) (cum : List JNum) :
    Option NormPoint :=
  if points.length < 2 then none
  else if cum.length = points.length then
    if JNum.jle target (fin 0) then normalizeLatLng (points.getD 0 .pnull)
    else
      match points, cum with
      | p0 :: ptl, c0 :: ctl =>
          match markerLoop target c0 p0 ctl ptl with
          | some pos => some pos
          | none => normalizeLatLng (points.getLastD .pnull)
      | _, _ => none
  else
    match points with
    | p0 :: ptl =>
        match fallbackLoop dist target (fin 0) p0 ptl with
        | some res => res
        | none => normalizeLatLng (points.getLastD .pnull)
    | [] => none

/-- `Math.floor(totalDistance / 1000)` as a count.  A non-finite total is
outside the model (with an infinite total the code's
`for (km = …; km <= kmCount; …)` loop would not terminate; with `NaN` it
runs zero times, as modelled by the count `0`). -/
def kmCount : JNum → ℕ
  | fin q => (⌊q / 1000⌋).toNat
  | _ => 0

/-- The `for (let km = …; km <= kmCount; km++)` marker-building loop of
`updateKilometerMarkers` (src/app.js:1040-1069), starting from an empty
cache: one marker per kilometer, stopping early (`break`) when
`getLatLngAtDistance` returns `null`. -/
def buildKmMarkers (dist : NormPoint → NormPoint → JNum)
    (points : List PointInput) (cum : List JNum) :
    ℕ → ℕ → List NormPoint
  | _, 0 => []
  | km, n + 1 =>
      match getLatLngAtDistance dist points (fin ((km : ℚ) * 1000)) cum with
      | none => []
      | some pos => pos :: buildKmMarkers dist points cum (km + 1) n

/-- `TrailTrack.updateKilometerMarkers` (src/app.js:1014-1070) restricted to
the marker positions it leaves on the map, starting from an empty cache:
no markers below 2 points or below total distance 1000, else one
interpolated marker per full kilometer. -/
def updateKilometerMarkers (dist : NormPoint → NormPoint → JNum)
    (points : List PointInput) (totalDistance : JNum) (cum : List JNum) :
    List NormPoint :=
  if points.length < 2 ∨ JNum.jlt totalDistance (fin 1000) then []
  else buildKmMarkers dist points cum 1 (kmCount totalDistance)

/-- The spec's placement rule (§4.4) at a given found index `i`: span and
ratio from entries `i-1`, `i`. -/
def specInterpolateAt (points : List PointInput) (cum : List JNum) (i : ℕ)
    (target : JNum) : Option NormPoint :=
  interpAux (cum.getD (i - 1) nan) (points.getD (i - 1) .pnull)
    (cum.getD i nan) (points.getD i .pnull) target

/-- The 3-point straight path of the spec's marker test vector (latitudes
`0`, longitudes chosen so that the given cumulative distances are
plausible). -/
def points3 : List PointInput :=
  [.parr [.jnum (fin 0), .jnum (fin 0)],
   .parr [.jnum (fin 0), .jnum (fin 6)],
   .parr [.jnum (fin 0), .jnum (fin 16)]]

/-- The cumulative distances `[0, 600, 1600]` of the spec's marker test
vector. -/
def cum3 : List JNum := [fin 0, fin 600, fin 1600]

/-!
## Persistence normalization (`TrailTrack.saveRoute`, claim C6)
-/

/-- The `created` field of a route before persistence: a `Date` (modelled
from host behavior by its `toISOString` rendering), a string, or anything
else (for which `saveRoute` substitutes the current instant). -/
inductive CreatedVal where
  | date : String → CreatedVal
  | str : String → CreatedVal
  | other : CreatedVal
deriving DecidableEq, Repr

/-- The fields of a route as `saveRoute` receives them. -/
structure RouteIn where
  id : JSVal
  name : JSVal
  points : List PointInput
  distance : JSVal
  elevationGain : JSVal
  created : CreatedVal
deriving DecidableEq, Repr

/-- The persisted record shape `saveRoute` hands to `db.put` (§6 of the
spec): strings for `id`/`name`/`created`, numbers for the rest; points keep
the `PointInput` type because `saveRoute` passes unrecognized point shapes
through unchanged. -/
structure RouteData where
  id : String
  name : String
  points : List PointInput
  distance : JNum
  elevationGain : JNum
  created : String
deriving DecidableEq, Repr

/-- The per-point serialization of `saveRoute` (src/app.js:1201-1209):
an array becomes `[Number(p[0]), Number(p[1])]` (missing entries are
`undefined`, hence `NaN`); an object with both `lat` and `lng` defined
becomes `[Number(lat), Number(lng)]`; anything else is returned as-is. -/
def savePoint : PointInput → PointInput
  | .parr xs => .parr [.jnum (toNumber (xs.getD 0 .jundef)),
                       .jnum (toNumber (xs.getD 1 .jundef))]
  | .pobj la ln =>
      if la ≠ .jundef ∧ ln ≠ .jundef then
        .parr [.jnum (toNumber la), .jnum (toNumber ln)]
      else .pobj la ln
  | .pnull => .pnull

/-- The record construction of `TrailTrack.saveRoute`
(src/app.js:1198-1229): `String(route.id)`,
`String(route.name || 'Unnamed Route')`, the serialized points,
`Number(route.distance || 0)`, `Number(route.elevationGain || 0)`, and the
`created` normalization (`Date → toISOString`, string kept, otherwise the
current instant `nowIso`). -/
def saveRouteData (nowIso : String) (route : RouteIn) : RouteData where
  id := jsToString route.id
  name := jsToString (jsOr route.name (.jstr "Unnamed Route"))
  points := route.points.map savePoint
  distance := toNumber (jsOr route.distance (.jnum (fin 0)))
  elevationGain := toNumber (jsOr route.elevationGain (.jnum (fin 0)))
  created :=
    match route.created with
    | .date iso => iso
    | .str s => s
    | .other => nowIso

/-- A persisted record viewed again as `saveRoute` input (each field keeps
its canonical storage type). -/
def toRouteIn (d : RouteData) : RouteIn :=
  ⟨.jstr d.id, .jstr d.name, d.points, .jnum d.distance,
   .jnum d.elevationGain, .str d.created⟩

/-- The test-vector input of the spec (§8.5) and of the repository's own
unit test: numeric `id`, untrimmed name, one object point with string
fields, one array point with string entries, string distances, and a
`Date` created value. -/
def testRoute : RouteIn :=
  ⟨.jnum (fin 123), .jstr " Test Route ",
   [.pobj (.jstr "10") (.jstr "20"), .parr [.jstr "11", .jstr "21"]],
   .jstr "42", .jstr "5", .date "2024-01-01T00:00:00.000Z"⟩

/-- The expected persisted record for `testRoute`. -/
def testExpected : RouteData :=
  ⟨"123", " Test Route ",
   [.parr [.jnum (fin 10), .jnum (fin 20)],
    .parr [.jnum (fin 11), .jnum (fin 21)]],
   fin 42, fin 5, "2024-01-01T00:00:00.000Z"⟩

/-- A record in canonical storage form (§6: `distance` is a number — and
`NaN` is a number) whose `distance` is `NaN`. -/
def nanRecord : RouteData :=
  ⟨"1", "A", [.parr [.jnum (fin 0), .jnum (fin 0)]], nan, fin 0,
   "2024-01-01T00:00:00.000Z"⟩

/-!
## GPX export / import (`exportGPX` / `importGPX`, claim C7)
-/

/-- A GeoJSON feature as the import/export code sees it: a `LineString`
with its coordinate list, or any other geometry (skipped by import). -/
inductive GeoFeature where
  | lineString : List (List JSVal) → GeoFeature
  | otherFeature : GeoFeature
deriving DecidableEq, Repr

/-- The coordinate inversion of `exportGPX` (src/app.js:1603):
`route.points.map(p => [p[1], p[0]])` — internal `[lat, lng]` to GeoJSON
`[lng, lat]` (indexing past the end of a malformed stored point yields
`undefined`). -/
def exportCoord : PointInput → List JSVal
  | .parr xs => [xs.getD 1 .jundef, xs.getD 0 .jundef]
  | _ => [.jundef, .jundef]

/-- The GeoJSON `FeatureCollection` built by `exportGPX`
(src/app.js:1594-1606): a single `LineString` feature holding the inverted
coordinates. -/
def exportGeoJSON (points : List PointInput) : List GeoFeature :=
  [.lineString (points.map exportCoord)]

/-- The coordinate extraction of `importGPX` (src/app.js:1538-1545): every
`LineString` feature contributes its coordinates, each inverted back from
`[lng, lat]` to `[lat, lng]` and stored as an array point. -/
def importPoints (features : List GeoFeature) : List PointInput :=
  features.flatMap fun f =>
    match f with
    | .lineString coords =>
        coords.map fun c => .parr [c.getD 1 .jundef, c.getD 0 .jundef]
    | .otherFeature => []

/-!
## Distance display (`TrailTrack.formatDistance`, claim C10)
-/

/-- `Number.prototype.toFixed(2)` on an exact rational: the integer `n`
with `n / 100` closest to the value, ties toward the larger `n`
(`n = ⌊100·x + 1/2⌋`), rendered with exactly two fraction digits. -/
def toFixed2 (x : ℚ) : String :=
  let n : ℤ := ⌊x * 100 + 1 / 2⌋
  let m := n.natAbs
  let sign := if n < 0 then "-" else ""
  sign ++ Nat.repr (m / 100) ++ "." ++
    (if m % 100 < 10 then "0" ++ Nat.repr (m % 100) else Nat.repr (m % 100))

/-- `TrailTrack.formatDistance` (src/app.js:1191-1195): coerce with
`Number`, replace a non-finite result by `0`, clamp below at `0`, divide by
`1000` and render with `toFixed(2)` plus the `km` suffix. -/
def formatDistance (v : JSVal) : String :=
  let numericDistance := toNumber v
  let sanitizedDistance : ℚ :=
    match numericDistance with
    | fin q => max q 0
    | _ => 0
  toFixed2 (sanitizedDistance / 1000) ++ " km"

/-- The claim's description of `formatDistance`:
`(max(v,0)/1000).toFixed(2) + ' km'` when the input coerces to a finite
number, `'0.00 km'` otherwise. -/
def specFormatDistance (v : JSVal) : String :=
  match toNumber v with
  | fin q => toFixed2 (max q 0 / 1000) ++ " km"
  | _ => "0.00 km"

/-!
## The haversine formula (`TrailTrack.haversineDistance`, claim C3)

The reference segment distance over the real numbers (JavaScript's `Math`
trigonometry modelled by real-analysis functions).
-/

/-- A normalized geographic point with real coordinates, as
`haversineDistance` receives it. -/
structure GeoPoint where
  lat : ℝ
  lng : ℝ

/-- JavaScript `Math.atan2(y, x)`. -/
noncomputable def atan2 (y x : ℝ) : ℝ :=
  if 0 < x then Real.arctan (y / x)
  else if x < 0 then
    (if 0 ≤ y then Real.arctan (y / x) + Real.pi
     else Real.arctan (y / x) - Real.pi)
  else
    (if 0 < y then Real.pi / 2 else if y < 0 then -(Real.pi / 2) else 0)

/-- The degree-to-radian conversion of `haversineDistance`. -/
noncomputable def toRadians (v : ℝ) : ℝ := v * Real.pi / 180

/-- `TrailTrack.haversineDistance` (src/app.js:1176-1189): the haversine
great-circle distance in meters on a sphere of radius 6 371 000 m. -/
noncomputable def haversineDistance (s e : GeoPoint) : ℝ :=
  let R : ℝ := 6371000
  let lat1 := toRadians s.lat
  let lat2 := toRadians e.lat
  let deltaLat := toRadians (e.lat - s.lat)
  let deltaLng := toRadians (e.lng - s.lng)
  let a := Real.sin (deltaLat / 2) * Real.sin (deltaLat / 2) +
    Real.cos lat1 * Real.cos lat2 *
      Real.sin (deltaLng / 2) * Real.sin (deltaLng / 2)
  let c := 2 * atan2 (Real.sqrt a) (Real.sqrt (1 - a))
  R * c

/-- The spec's haversine intermediate value:
`a = sin²(Δlat/2) + cos(lat1)·cos(lat2)·sin²(Δlng/2)`. -/
noncomputable def havA (s e : GeoPoint) : ℝ :=
  Real.sin (toRadians (e.lat - s.lat) / 2) ^ 2 +
    Real.cos (toRadians s.lat) * Real.cos (toRadians e.lat) *
      Real.sin (toRadians (e.lng - s.lng) / 2) ^ 2

/-!
## Structure lemmas about the rebuilt cumulative-distance array
-/

theorem rebuildAux_length (dist : NormPoint → NormPoint → JNum) :
    ∀ (rest : List PointInput) (prev : PointInput) (total : JNum),
      (rebuildAux dist prev total rest).length = rest.length := by
  intro rest
  induction rest with
  | nil => intro prev total; rfl
  | cons p rest ih => intro prev total; simp [rebuildAux, ih]

theorem rebuildCumList_length (dist : NormPoint → NormPoint → JNum)
    (pts : List PointInput) :
    (rebuildCumList dist pts).length = pts.length := by
  cases pts with
  | nil => rfl
  | cons p rest => simp [rebuildCumList, rebuildAux_length]

theorem rebuildAux_snoc (dist : NormPoint → NormPoint → JNum)
    (p : PointInput) :
    ∀ (rest : List PointInput) (prev : PointInput) (total : JNum),
      rebuildAux dist prev total (rest ++ [p]) =
        rebuildAux dist prev total rest ++
          [(rebuildAux dist prev total rest).getLastD total +
            calculateSegmentDistance dist (rest.getLastD prev) p] := by
  intro rest
  induction rest with
  | nil => intro prev total; simp [rebuildAux]
  | cons q rs ih =>
      intro prev total
      have h1 : (q :: rs) ++ [p] = q :: (rs ++ [p]) := rfl
      rw [h1]
      simp only [rebuildAux]
      rw [ih]
      simp only [List.cons_append, List.getLastD_cons]

/-- Appending a point appends one cumulative entry: the previous last entry
plus the distance of the new segment. -/
theorem rebuildCumList_snoc (dist : NormPoint → NormPoint → JNum)
    (pts : List PointInput) (hne : pts ≠ []) (p : PointInput) :
    rebuildCumList dist (pts ++ [p]) =
      rebuildCumList dist pts ++
        [(rebuildCumList dist pts).getLastD (fin 0) +
          calculateSegmentDistance dist (pts.getLastD .pnull) p] := by
  cases pts with
  | nil => exact absurd rfl hne
  | cons q rest =>
      simp only [List.cons_append, rebuildCumList, rebuildAux_snoc,
        List.getLastD_cons]

/-- Dropping the final point drops the final cumulative entry. -/
theorem rebuildCumList_dropLast (dist : NormPoint → NormPoint → JNum)
    (pts : List PointInput) :
    rebuildCumList dist pts.dropLast = (rebuildCumList dist pts).dropLast := by
  by_cases hd : pts.dropLast = []
  · cases pts with
    | nil => rfl
    | cons a l =>
        cases l with
        | nil => rfl
        | cons b m => simp [List.dropLast] at hd
  · have hne : pts ≠ [] := by
      intro h; subst h; simp at hd
    have hrec : pts.dropLast ++ [pts.getLast hne] = pts :=
      List.dropLast_append_getLast hne
    have hdne : pts.dropLast ≠ [] := hd
    calc rebuildCumList dist pts.dropLast
        = (rebuildCumList dist pts.dropLast ++
            [(rebuildCumList dist pts.dropLast).getLastD (fin 0) +
              calculateSegmentDistance dist (pts.dropLast.getLastD .pnull)
                (pts.getLast hne)]).dropLast := by
          rw [List.dropLast_concat]
      _ = (rebuildCumList dist (pts.dropLast ++ [pts.getLast hne])).dropLast := by
          rw [rebuildCumList_snoc dist pts.dropLast hdne]
      _ = (rebuildCumList dist pts).dropLast := by rw [hrec]

theorem JNum.add_isFin {a b : JNum} (ha : a.isFin = true) (hb : b.isFin = true) :
    (a + b).isFin = true := by
  cases a <;> cases b <;> first | rfl | simp [JNum.isFin] at ha hb

theorem calculateSegmentDistance_isFin {dist : NormPoint → NormPoint → JNum}
    (hdist : ∀ a b, (dist a b).isFin = true) (p q : PointInput) :
    (calculateSegmentDistance dist p q).isFin = true := by
  unfold calculateSegmentDistance
  cases normalizeLatLng p with
  | none => cases normalizeLatLng q <;> rfl
  | some s =>
      cases normalizeLatLng q with
      | none => rfl
      | some e => exact hdist s e

theorem rebuildAux_isFin {dist : NormPoint → NormPoint → JNum}
    (hdist : ∀ a b, (dist a b).isFin = true) :
    ∀ (rest : List PointInput) (prev : PointInput) (total : JNum),
      total.isFin = true →
      ∀ x ∈ rebuildAux dist prev total rest, x.isFin = true := by
  intro rest
  induction rest with
  | nil => intro prev total _ x hx; simp [rebuildAux] at hx
  | cons p rs ih =>
      intro prev total htotal x hx
      simp only [rebuildAux, List.mem_cons] at hx
      have hfin : (total + calculateSegmentDistance dist prev p).isFin = true :=
        JNum.add_isFin htotal (calculateSegmentDistance_isFin hdist prev p)
      rcases hx with rfl | hx
      · exact hfin
      · exact ih p _ hfin x hx

theorem rebuildCumList_isFin {dist : NormPoint → NormPoint → JNum}
    (hdist : ∀ a b, (dist a b).isFin = true) (pts : List PointInput) :
    ∀ x ∈ rebuildCumList dist pts, x.isFin = true := by
  cases pts with
  | nil => intro x hx; simp [rebuildCumList] at hx
  | cons p rest =>
      intro x hx
      simp only [rebuildCumList, List.mem_cons] at hx
      rcases hx with rfl | hx
      · rfl
      · exact rebuildAux_isFin hdist rest p (fin 0) rfl x hx

/-- On a list of finite entries (or an empty list), the code's
`last || 0` equals the plain last entry (default `0`). -/
theorem lastOrZero_of_ne_nan (l : List JNum) (h : l.getLast? ≠ some nan) :
    lastOrZero l = l.getLastD (fin 0) := by
  rw [List.getLastD_eq_getLast?]
  unfold lastOrZero
  cases hl : l.getLast? with
  | none => rfl
  | some v =>
      rw [hl] at h
      cases v with
      | fin a =>
          by_cases ha : a = 0 <;> simp [JNum.truthy, ha, Option.getD]
      | nan => exact absurd rfl h
      | inf => rfl
      | ninf => rfl

theorem getLastD_isFin {l : List JNum} (hf : ∀ x ∈ l, x.isFin = true) :
    (l.getLastD (fin 0)).isFin = true := by
  rw [List.getLastD_eq_getLast?]
  cases hl : l.getLast? with
  | none => rfl
  | some v => exact hf v (List.mem_of_mem_getLast? (by rw [hl]; rfl))

theorem getLast?_ne_nan_of_isFin {l : List JNum}
    (hf : ∀ x ∈ l, x.isFin = true) : l.getLast? ≠ some nan := by
  intro hn
  have := hf nan (List.mem_of_mem_getLast? (by rw [hn]; rfl))
  simp [JNum.isFin] at this

theorem syncedFin_add {dist : NormPoint → NormPoint → JNum}
    (hdist : ∀ a b, (dist a b).isFin = true) {r : Route}
    (h : SyncedFin dist r) (l : LatLngInput) :
    SyncedFin dist (addPointToRoute dist r l) := by
  obtain ⟨hc, hf⟩ := h
  unfold addPointToRoute
  cases toStoredPoint l with
  | none => exact ⟨hc, hf⟩
  | some point =>
    cases hlast : r.points.getLast? with
    | none =>
        have hpts : r.points = [] := List.getLast?_eq_none_iff.mp hlast
        refine ⟨?_, ?_⟩
        · simp [hpts, rebuildCumList, rebuildAux]
        · intro x hx
          simp only [List.mem_singleton] at hx
          subst hx; rfl
    | some prev =>
        have hne : r.points ≠ [] := by
          intro h0; rw [h0] at hlast; simp at hlast
        have hprev : r.points.getLastD .pnull = prev := by
          rw [List.getLastD_eq_getLast?, hlast]; rfl
        have hnan : r.cumulativeDistances.getLast? ≠ some nan :=
          getLast?_ne_nan_of_isFin hf
        have hlz : lastOrZero r.cumulativeDistances =
            r.cumulativeDistances.getLastD (fin 0) :=
          lastOrZero_of_ne_nan _ hnan
        have hlastfin : ((r.cumulativeDistances.getLastD (fin 0)) +
            calculateSegmentDistance dist prev point).isFin = true :=
          JNum.add_isFin (getLastD_isFin hf)
            (calculateSegmentDistance_isFin hdist prev point)
        refine ⟨?_, ?_⟩
        · show r.cumulativeDistances ++ [_] =
            rebuildCumList dist (r.points ++ [point])
          rw [rebuildCumList_snoc dist r.points hne point, hlz, hprev, hc]
        · intro x hx
          rcases List.mem_append.mp hx with hx | hx
          · exact hf x hx
          · simp only [List.mem_singleton] at hx
            subst hx
            rw [hlz]
            exact hlastfin

theorem syncedFin_undo {dist : NormPoint → NormPoint → JNum} {r : Route}
    (h : SyncedFin dist r) : SyncedFin dist (undoLastPoint r) := by
  obtain ⟨hc, hf⟩ := h
  unfold undoLastPoint
  by_cases hpts : r.points = []
  · simp only [hpts, if_pos]
    exact ⟨hc, hf⟩
  · simp only [if_neg hpts]
    refine ⟨?_, ?_⟩
    · show r.cumulativeDistances.dropLast = _
      rw [hc, ← rebuildCumList_dropLast]
    · intro x hx
      exact hf x (List.dropLast_subset _ hx)

theorem syncedFin_applyOps {dist : NormPoint → NormPoint → JNum}
    (hdist : ∀ a b, (dist a b).isFin = true) :
    ∀ (ops : List RouteOp) (r : Route), SyncedFin dist r →
      SyncedFin dist (applyOps dist r ops) := by
  intro ops
  induction ops with
  | nil => intro r h; exact h
  | cons op rest ih =>
      intro r h
      cases op with
      | add latlng => exact ih _ (syncedFin_add hdist h latlng)
      | undo => exact ih _ (syncedFin_undo h)

theorem syncedFin_empty (dist : NormPoint → NormPoint → JNum) :
    SyncedFin dist emptyRoute := by
  refine ⟨rfl, ?_⟩
  intro x hx
  simp [emptyRoute] at hx

@[simp] theorem JNum.fin_add_fin (a b : ℚ) : fin a + fin b = fin (a + b) := rfl

@[simp] theorem JNum.nan_add (a : JNum) : nan + a = nan := by cases a <;> rfl

@[simp] theorem JNum.add_nan (a : JNum) : a + nan = nan := by cases a <;> rfl

@[simp] theorem JNum.fin_sub_fin (a b : ℚ) : fin a - fin b = fin (a - b) := rfl

@[simp] theorem JNum.fin_mul_fin (a b : ℚ) : fin a * fin b = fin (a * b) := rfl

/-- C1 (amended): for every sequence of `addPointToRoute`/`undoLastPoint`
operations starting from a fresh route, provided the segment-distance
function returns a finite number on every pair of normalized points (as the
haversine does on well-formed coordinates), `rebuildCumulativeDistances` on
the final point list yields exactly the same cumulative-distance array as
the one maintained incrementally throughout, using the same
segment-distance function for both paths. -/
theorem C1_incremental_matches_rebuild
    (dist : NormPoint → NormPoint → JNum)
    (hdist : ∀ a b, (dist a b).isFin = true) (ops : List RouteOp) :
    (rebuildCumulativeDistances dist
        (applyOps dist emptyRoute ops)).cumulativeDistances
      = (applyOps dist emptyRoute ops).cumulativeDistances :=
  (syncedFin_applyOps hdist ops emptyRoute (syncedFin_empty dist)).1.symm

/-- Witness for C1 at a concrete distance function and operation sequence. -/
theorem C1_witness :
    (rebuildCumulativeDistances constDist
        (applyOps constDist emptyRoute ops0)).cumulativeDistances
      = (applyOps constDist emptyRoute ops0).cumulativeDistances :=
  C1_incremental_matches_rebuild constDist (fun _ _ => rfl) ops0

/-- Counterexample to C1 as stated: with the malformed (but accepted) array
point `['a', 'x']` in the middle of the sequence, the incremental array ends
`…, NaN, NaN, 1` (the `lastDistance || 0` fallback in `addPointToRoute`
restarts the sum at `0` after a `NaN` entry) while the rebuilt array ends
`…, NaN, NaN, NaN` (the running total stays `NaN`). -/
theorem C1_counterexample :
    (rebuildCumulativeDistances mockDist
        (applyOps mockDist emptyRoute ops1)).cumulativeDistances
      ≠ (applyOps mockDist emptyRoute ops1).cumulativeDistances := by
  norm_num +decide [applyOps, addPointToRoute, toStoredPoint, emptyRoute,
    lastOrZero, calculateSegmentDistance, normalizeLatLng, toNumber,
    parseNumber, jsTrim, parseDecBody, digitsVal, digitVal, mockDist, ops1,
    rebuildCumulativeDistances, rebuildCumList, rebuildAux, rebuildTotal,
    JNum.truthy]

theorem rebuildCumList_getD_zero (dist : NormPoint → NormPoint → JNum)
    (pts : List PointInput) (h : pts ≠ []) :
    (rebuildCumList dist pts).getD 0 nan = fin 0 := by
  cases pts with
  | nil => exact absurd rfl h
  | cons p rest => rfl

theorem rebuildAux_getD_succ (dist : NormPoint → NormPoint → JNum) :
    ∀ (rest : List PointInput) (prev : PointInput) (total : JNum) (i : ℕ),
      i + 1 < rest.length →
      (rebuildAux dist prev total rest).getD (i + 1) nan =
        (rebuildAux dist prev total rest).getD i nan +
          calculateSegmentDistance dist (rest.getD i .pnull)
            (rest.getD (i + 1) .pnull) := by
  intro rest
  induction rest with
  | nil => intro prev total i h; simp at h
  | cons p rs ih =>
      intro prev total i h
      cases i with
      | zero =>
          cases rs with
          | nil => simp at h
          | cons q rs' => simp [rebuildAux, List.getD_cons_succ,
              List.getD_cons_zero]
      | succ j =>
          have hj : j + 1 < rs.length := by
            simpa using h
          simp only [rebuildAux, List.getD_cons_succ]
          exact ih p _ j hj

theorem rebuildCumList_getD_succ (dist : NormPoint → NormPoint → JNum)
    (pts : List PointInput) (i : ℕ) (h : i + 1 < pts.length) :
    (rebuildCumList dist pts).getD (i + 1) nan =
      (rebuildCumList dist pts).getD i nan +
        calculateSegmentDistance dist (pts.getD i .pnull)
          (pts.getD (i + 1) .pnull) := by
  cases pts with
  | nil => simp at h
  | cons p rest =>
      cases i with
      | zero =>
          cases rest with
          | nil => simp at h
          | cons q rs =>
              simp [rebuildCumList, rebuildAux, List.getD_cons_succ,
                List.getD_cons_zero]
      | succ j =>
          have hj : j + 1 < rest.length := by simpa using h
          simp only [rebuildCumList, List.getD_cons_succ]
          exact rebuildAux_getD_succ dist rest p (fin 0) j hj

/-- The recurrence of claim C2 pins the array down: any array of the right
length satisfying entry `0 = 0` and the cumulative recurrence is exactly
the rebuilt array. -/
theorem eq_rebuildCumList_of_recurrence (dist : NormPoint → NormPoint → JNum)
    (pts : List PointInput) (cum : List JNum)
    (hlen : cum.length = pts.length)
    (h0 : pts ≠ [] → cum.getD 0 nan = fin 0)
    (hrec : ∀ i, 1 ≤ i → i < pts.length →
      cum.getD i nan = cum.getD (i - 1) nan +
        calculateSegmentDistance dist (pts.getD (i - 1) .pnull)
          (pts.getD i .pnull)) :
    cum = rebuildCumList dist pts := by
  have key : ∀ n, n < pts.length →
      cum.getD n nan = (rebuildCumList dist pts).getD n nan := by
    intro n
    induction n with
    | zero =>
        intro hn
        have hne : pts ≠ [] := by
          intro h; rw [h] at hn; simp at hn
        rw [h0 hne, rebuildCumList_getD_zero dist pts hne]
    | succ j ih =>
        intro hn
        have hj : j < pts.length := by omega
        have h1 := hrec (j + 1) (by omega) hn
        simp only [Nat.add_sub_cancel] at h1
        rw [h1, ih hj, ← rebuildCumList_getD_succ dist pts j hn]
  apply List.ext_getElem (by rw [hlen, rebuildCumList_length])
  intro n h1 h2
  have := key n (by omega)
  rwa [List.getD_eq_getElem _ _ h1, List.getD_eq_getElem _ _ h2] at this

/-- Claim C2's invariant is equivalent to `cumulativeDistances` being the
rebuilt array together with the `distance` condition. -/
theorem routeInv_iff (dist : NormPoint → NormPoint → JNum) (r : Route) :
    RouteInv dist r ↔
      (r.cumulativeDistances = rebuildCumList dist r.points ∧ distanceOK r) := by
  constructor
  · rintro ⟨hlen, h0, hrec, hd⟩
    exact ⟨eq_rebuildCumList_of_recurrence dist r.points r.cumulativeDistances
      hlen h0 hrec, hd⟩
  · rintro ⟨hc, hd⟩
    refine ⟨by rw [hc, rebuildCumList_length], ?_, ?_, hd⟩
    · intro hne
      rw [hc]
      exact rebuildCumList_getD_zero dist r.points hne
    · intro i h1 hi
      obtain ⟨j, rfl⟩ : ∃ j, i = j + 1 := ⟨i - 1, by omega⟩
      rw [hc]
      simpa using rebuildCumList_getD_succ dist r.points j hi

/-- Adding a point preserves the invariant, provided the current last
cumulative entry is not `NaN` (so that the code's `lastDistance || 0`
fallback does not replace it with `0`). -/
theorem addPointToRoute_inv (dist : NormPoint → NormPoint → JNum)
    (r : Route) (l : LatLngInput) (h : RouteInv dist r)
    (hnan : r.cumulativeDistances.getLast? ≠ some nan) :
    RouteInv dist (addPointToRoute dist r l) := by
  rw [routeInv_iff] at h ⊢
  obtain ⟨hc, hd⟩ := h
  unfold addPointToRoute
  cases toStoredPoint l with
  | none => exact ⟨hc, hd⟩
  | some point =>
    cases hlast : r.points.getLast? with
    | none =>
        have hpts : r.points = [] := List.getLast?_eq_none_iff.mp hlast
        constructor
        · simp [hpts, rebuildCumList, rebuildAux]
        · simp [distanceOK, hpts]
    | some prev =>
        have hne : r.points ≠ [] := by
          intro h0; rw [h0] at hlast; simp at hlast
        have hprev : r.points.getLastD .pnull = prev := by
          rw [List.getLastD_eq_getLast?, hlast]; rfl
        have hlz : lastOrZero r.cumulativeDistances =
            r.cumulativeDistances.getLastD (fin 0) :=
          lastOrZero_of_ne_nan _ hnan
        constructor
        · show r.cumulativeDistances ++ [_] =
            rebuildCumList dist (r.points ++ [point])
          rw [rebuildCumList_snoc dist r.points hne point, hlz, hprev, hc]
        · show lastOrZero r.cumulativeDistances +
              calculateSegmentDistance dist prev point =
            if (r.points ++ [point]).length < 2 then fin 0
            else (r.cumulativeDistances ++ [lastOrZero r.cumulativeDistances +
              calculateSegmentDistance dist prev point]).getLastD (fin 0)
          have hlen2 : ¬ (r.points ++ [point]).length < 2 := by
            have := List.length_pos.mpr hne
            simp only [List.length_append, List.length_cons, List.length_nil]
            omega
          rw [if_neg hlen2, List.getLastD_concat]

/-- Undoing the last point always preserves the invariant. -/
theorem undoLastPoint_inv (dist : NormPoint → NormPoint → JNum)
    (r : Route) (h : RouteInv dist r) :
    RouteInv dist (undoLastPoint r) := by
  rw [routeInv_iff] at h ⊢
  obtain ⟨hc, hd⟩ := h
  unfold undoLastPoint
  by_cases hpts : r.points = []
  · rw [if_pos hpts]
    exact ⟨hc, hd⟩
  · rw [if_neg hpts]
    have hcum : r.cumulativeDistances.dropLast =
        rebuildCumList dist r.points.dropLast := by
      rw [hc, ← rebuildCumList_dropLast]
    refine ⟨hcum, ?_⟩
    show r.cumulativeDistances.dropLast.getLastD (fin 0) =
      if r.points.dropLast.length < 2 then fin 0
      else r.cumulativeDistances.dropLast.getLastD (fin 0)
    by_cases hlt : r.points.dropLast.length < 2
    · rw [if_pos hlt]
      rcases hdl : r.points.dropLast with _ | ⟨q, rest⟩
      · rw [hcum, hdl]; rfl
      · have hlen1 : rest.length = 0 := by
          rw [hdl] at hlt
          simp only [List.length_cons] at hlt
          omega
        have hrest : rest = [] := List.length_eq_zero.mp hlen1
        subst hrest
        rw [hcum, hdl]
        rfl
    · rw [if_neg hlt]

/-- C2 (amended): from any state satisfying the claim's invariant,
`undoLastPoint` preserves it unconditionally, and `addPointToRoute` (with
any input) preserves it provided the last cumulative entry is not `NaN`
(always the case for well-formed points; a `NaN` entry arises only from a
malformed point earlier in the route). -/
theorem C2_invariant_preserved (dist : NormPoint → NormPoint → JNum)
    (r : Route) (l : LatLngInput) :
    (RouteInv dist r → r.cumulativeDistances.getLast? ≠ some nan →
      RouteInv dist (addPointToRoute dist r l)) ∧
    (RouteInv dist r → RouteInv dist (undoLastPoint r)) :=
  ⟨fun h hn => addPointToRoute_inv dist r l h hn,
   fun h => undoLastPoint_inv dist r h⟩

/-- Witness for C2 at a concrete state, input and distance function. -/
theorem C2_witness :
    RouteInv constDist (addPointToRoute constDist r2 (.lobj (fin 1) (fin 1))) ∧
    RouteInv constDist (undoLastPoint r2) := by
  have h2 : RouteInv constDist r2 := by
    rw [routeInv_iff]
    constructor
    · norm_num [r2, rebuildCumList, rebuildAux, calculateSegmentDistance,
        normalizeLatLng, constDist]
    · norm_num [distanceOK, r2]
  exact ⟨(C2_invariant_preserved constDist r2 (.lobj (fin 1) (fin 1))).1 h2
      (by simp [r2]),
    (C2_invariant_preserved constDist r2 (.lobj (fin 1) (fin 1))).2 h2⟩

/-- Counterexample to C2 as stated: `badRoute` satisfies the claimed
invariant, but adding the perfectly well-formed point `(0, 2)` breaks the
recurrence at the new index — the code pushes `0 + segment` (because
`lastDistance || 0` turns the `NaN` last entry into `0`) where the
invariant demands `NaN + segment = NaN`. -/
theorem C2_counterexample :
    RouteInv mockDist badRoute ∧
    ¬ RouteInv mockDist
        (addPointToRoute mockDist badRoute (.lobj (fin 0) (fin 2))) := by
  have hres : addPointToRoute mockDist badRoute (.lobj (fin 0) (fin 2)) =
      ⟨[.parr [.jnum (fin 0), .jnum (fin 0)], .parr [.jstr "a", .jstr "x"],
        .parr [.jnum (fin 0), .jnum (fin 1)],
        .parr [.jnum (fin 0), .jnum (fin 2)]],
       [fin 0, nan, nan, fin 1], fin 1⟩ := by
    norm_num +decide [addPointToRoute, toStoredPoint, badRoute, lastOrZero,
      calculateSegmentDistance, normalizeLatLng, toNumber, parseNumber,
      jsTrim, parseDecBody, digitsVal, digitVal, mockDist, JNum.truthy]
  constructor
  · rw [routeInv_iff]
    constructor
    · norm_num +decide [badRoute, rebuildCumList, rebuildAux,
        calculateSegmentDistance, normalizeLatLng, toNumber, parseNumber,
        jsTrim, parseDecBody, digitsVal, digitVal, mockDist]
    · norm_num [distanceOK, badRoute]
  · intro h
    rw [hres] at h
    have h3 := h.2.2.1 3 (by norm_num) (by norm_num)
    norm_num +decide [calculateSegmentDistance, normalizeLatLng, toNumber,
      mockDist] at h3

/-- C9 (confirmed): `undoLastPoint` on a route with no points is a no-op
(the model is a total function — no exception); on a non-empty route it
pops exactly the last point and the last cumulative entry and recomputes
`distance` from the new last cumulative entry, or `0` when none remains. -/
theorem C9_undo_behavior (r : Route) :
    (r.points = [] → undoLastPoint r = r) ∧
    (∀ ps p, r.points = ps ++ [p] →
      (undoLastPoint r).points = ps ∧
      (∀ cs c, r.cumulativeDistances = cs ++ [c] →
        (undoLastPoint r).cumulativeDistances = cs) ∧
      (r.cumulativeDistances = [] →
        (undoLastPoint r).cumulativeDistances = []) ∧
      ((undoLastPoint r).cumulativeDistances = [] →
        (undoLastPoint r).distance = fin 0) ∧
      ((undoLastPoint r).cumulativeDistances ≠ [] →
        some (undoLastPoint r).distance =
          (undoLastPoint r).cumulativeDistances.getLast?)) := by
  constructor
  · intro h
    unfold undoLastPoint
    rw [if_pos h]
  · intro ps p hps
    have hne : r.points ≠ [] := by
      rw [hps]; exact fun h => by simp at h
    unfold undoLastPoint
    rw [if_neg hne]
    refine ⟨?_, ?_, ?_, ?_, ?_⟩
    · show r.points.dropLast = ps
      rw [hps, List.dropLast_concat]
    · intro cs c hcs
      show r.cumulativeDistances.dropLast = cs
      rw [hcs, List.dropLast_concat]
    · intro hc
      show r.cumulativeDistances.dropLast = []
      rw [hc]; rfl
    · intro hc
      show r.cumulativeDistances.dropLast.getLastD (fin 0) = fin 0
      replace hc : r.cumulativeDistances.dropLast = [] := hc
      rw [hc]; rfl
    · intro hc
      replace hc : r.cumulativeDistances.dropLast ≠ [] := hc
      show some (r.cumulativeDistances.dropLast.getLastD (fin 0)) =
        r.cumulativeDistances.dropLast.getLast?
      rw [List.getLastD_eq_getLast?]
      cases hl : r.cumulativeDistances.dropLast.getLast? with
      | none => exact absurd (List.getLast?_eq_none_iff.mp hl) hc
      | some v => rfl

/-- Witness for C9 at concrete routes (the empty route and a two-point
route). -/
theorem C9_witness :
    undoLastPoint emptyRoute = emptyRoute ∧
    (undoLastPoint r2).points = [.parr [.jnum (fin 0), .jnum (fin 0)]] ∧
    (undoLastPoint r2).cumulativeDistances = [fin 0] := by
  refine ⟨(C9_undo_behavior emptyRoute).1 rfl, ?_, ?_⟩
  · exact ((C9_undo_behavior r2).2
      [.parr [.jnum (fin 0), .jnum (fin 0)]]
      (.parr [.jnum (fin 0), .jnum (fin 1)]) rfl).1
  · exact ((C9_undo_behavior r2).2
      [.parr [.jnum (fin 0), .jnum (fin 0)]]
      (.parr [.jnum (fin 0), .jnum (fin 1)]) rfl).2.1 [fin 0] (fin 1) rfl

/-- C8 (confirmed): finalizing an in-progress route with fewer than 2
points reports a user-facing validation failure (an error toast; the model
is a total function, so no exception is raised), persists nothing, and
leaves the route — its points, cumulative distances and distance —
unchanged. -/
theorem C8_short_route_not_finalized (dist : NormPoint → NormPoint → JNum)
    (r : Route) (h : r.points.length < 2) :
    (finishRouteCreation dist (some r)).current = some r ∧
    (finishRouteCreation dist (some r)).saved = none ∧
    (finishRouteCreation dist (some r)).toast =
      "Route needs at least 2 points" ∧
    (finishRouteCreation dist (some r)).toastKind = .error := by
  have e : finishRouteCreation dist (some r) =
      if r.points.length < 2 then
        ⟨some r, none, "Route needs at least 2 points", .error⟩
      else
        ⟨none, some (rebuildCumulativeDistances dist r),
         "Route saved successfully", .success⟩ := rfl
  rw [e, if_pos h]
  exact ⟨rfl, rfl, rfl, rfl⟩

/-- Witness for C8 at a concrete one-point route. -/
theorem C8_witness :
    (finishRouteCreation constDist
        (some ⟨[.parr [.jnum (fin 0), .jnum (fin 0)]], [fin 0], fin 0⟩)).current
      = some ⟨[.parr [.jnum (fin 0), .jnum (fin 0)]], [fin 0], fin 0⟩ ∧
    (finishRouteCreation constDist
        (some ⟨[.parr [.jnum (fin 0), .jnum (fin 0)]], [fin 0], fin 0⟩)).saved
      = none :=
  ⟨(C8_short_route_not_finalized constDist _ (by norm_num)).1,
   (C8_short_route_not_finalized constDist _ (by norm_num)).2.1⟩

/-- C4 (amended): `normalizeLatLng` accepts any array with at least two
entries (not only 2-element pairs), coercing the first two entries with
`Number` — numeric strings via decimal parsing, non-numeric entries
becoming `NaN` coordinates rather than the invalid sentinel; it accepts an
object only when both `lat` and `lng` are already numbers (numeric-string
fields are rejected as invalid); every other shape (short array, object
with missing, string or other non-number fields, null) yields the invalid
sentinel. -/
theorem C4_normalizeLatLng_characterization :
    (∀ a b rest, normalizeLatLng (.parr (a :: b :: rest)) =
        some ⟨toNumber a, toNumber b⟩) ∧
    (∀ xs : List JSVal, xs.length < 2 → normalizeLatLng (.parr xs) = none) ∧
    (∀ a b, normalizeLatLng (.pobj (.jnum a) (.jnum b)) = some ⟨a, b⟩) ∧
    (∀ u v, ((∀ a, u ≠ .jnum a) ∨ (∀ b, v ≠ .jnum b)) →
        normalizeLatLng (.pobj u v) = none) ∧
    normalizeLatLng .pnull = none ∧
    normalizeLatLng (.parr [.jstr "10", .jstr "20"]) =
      some ⟨fin 10, fin 20⟩ ∧
    normalizeLatLng (.parr [.jstr "abc", .jnum (fin 5)]) =
      some ⟨nan, fin 5⟩ := by
  refine ⟨fun a b rest => rfl, ?_, fun a b => rfl, ?_, rfl, ?_, ?_⟩
  · intro xs h
    match xs with
    | [] => rfl
    | [a] => rfl
    | a :: b :: rest => simp only [List.length_cons] at h; omega
  · intro u v h
    match u, v with
    | .jnum a, .jnum b =>
        rcases h with h | h
        · exact absurd rfl (h a)
        · exact absurd rfl (h b)
    | .jnum _, .jstr _ => rfl
    | .jnum _, .jundef => rfl
    | .jstr _, _ => rfl
    | .jundef, _ => rfl
  · norm_num +decide [normalizeLatLng, toNumber, parseNumber, jsTrim,
      parseDecBody, digitsVal, digitVal]
  · norm_num +decide [normalizeLatLng, toNumber, parseNumber, jsTrim,
      parseDecBody, digitsVal, digitVal]

/-- Counterexample to C4 as stated: an object whose `lat`/`lng` fields are
the numeric strings `'10'`/`'20'` — which the claim says yields the
canonical `{lat: 10, lng: 20}` — is rejected by the code's
`typeof point.lat === 'number'` test and yields the invalid sentinel. -/
theorem C4_counterexample :
    normalizeLatLng (.pobj (.jstr "10") (.jstr "20")) = none ∧
    parseNumber "10" = fin 10 ∧ parseNumber "20" = fin 20 := by
  refine ⟨rfl, ?_, ?_⟩ <;>
    norm_num +decide [parseNumber, jsTrim, parseDecBody, digitsVal, digitVal]

/-- Witness for C4 at a concrete short array. -/
theorem C4_witness :
    normalizeLatLng (.parr [.jnum (fin 1)]) = none :=
  C4_normalizeLatLng_characterization.2.1 [.jnum (fin 1)] (by norm_num)

theorem interpAux_isSome {pprev p : PointInput} (cprev c target : JNum)
    (hprev : (normalizeLatLng pprev).isSome = true)
    (hp : (normalizeLatLng p).isSome = true) :
    (interpAux cprev pprev c p target).isSome = true := by
  unfold interpAux
  cases hn1 : normalizeLatLng pprev with
  | none => rw [hn1] at hprev; simp at hprev
  | some s =>
      cases hn2 : normalizeLatLng p with
      | none => rw [hn2] at hp; simp at hp
      | some e =>
          by_cases hz : (c - cprev).isZero = true <;> simp [hz]

/-- The search loop finds exactly the first index whose cumulative entry is
not below the target, and interpolates on that segment (all points assumed
normalizable, so the `continue`-on-invalid branch is never taken). -/
theorem markerLoop_spec (target : JNum) :
    ∀ (k : ℕ) (ctl : List JNum) (ptl : List PointInput)
      (c0 : JNum) (p0 : PointInput),
      k < ctl.length → ctl.length = ptl.length →
      (∀ j, j < k → JNum.jlt (ctl.getD j nan) target = true) →
      JNum.jlt (ctl.getD k nan) target = false →
      (∀ p ∈ ptl, (normalizeLatLng p).isSome = true) →
      (normalizeLatLng p0).isSome = true →
      markerLoop target c0 p0 ctl ptl =
        interpAux ((c0 :: ctl).getD k nan) ((p0 :: ptl).getD k .pnull)
          (ctl.getD k nan) (ptl.getD k .pnull) target := by
  intro k
  induction k with
  | zero =>
      intro ctl ptl c0 p0 hk hlen _ hstop hvalid hp0
      cases ctl with
      | nil => simp at hk
      | cons c cs =>
          cases ptl with
          | nil => simp at hlen
          | cons p ps =>
              simp only [List.getD_cons_zero] at hstop ⊢
              unfold markerLoop
              rw [hstop]
              simp only [Bool.false_eq_true, if_false]
              have hsome := interpAux_isSome c0 c target hp0
                (hvalid p (by simp))
              cases hia : interpAux c0 p0 c p target with
              | none => rw [hia] at hsome; simp at hsome
              | some pos => rfl
  | succ k ih =>
      intro ctl ptl c0 p0 hk hlen hskip hstop hvalid hp0
      cases ctl with
      | nil => simp at hk
      | cons c cs =>
          cases ptl with
          | nil => simp at hlen
          | cons p ps =>
              have hc : JNum.jlt c target = true := by
                have := hskip 0 (Nat.zero_lt_succ k)
                simpa using this
              unfold markerLoop
              rw [hc]
              simp only [if_true]
              have := ih cs ps c p (by simpa using hk) (by simpa using hlen)
                (fun j hj => by
                  have := hskip (j + 1) (by omega)
                  simpa using this)
                (by simpa using hstop)
                (fun q hq => hvalid q (by simp [hq]))
                (hvalid p (by simp))
              rw [this]
              simp only [List.getD_cons_succ]

@[simp] theorem JNum.fin_div_fin (a b : ℚ) (h : b ≠ 0) :
    fin a / fin b = fin (a / b) := by
  show JNum.div (fin a) (fin b) = fin (a / b)
  simp only [JNum.div]
  rw [if_neg h]

@[simp] theorem JNum.jlt_fin_fin (a b : ℚ) :
    JNum.jlt (fin a) (fin b) = decide (a < b) := rfl

@[simp] theorem JNum.jle_fin_fin (a b : ℚ) :
    JNum.jle (fin a) (fin b) = decide (a ≤ b) := rfl

@[simp] theorem JNum.isZero_fin (a : ℚ) :
    (fin a).isZero = decide (a = 0) := rfl

/-- C5 (amended): the marker for target `d` is found at the first index `i`
with `cumulativeDistances[i] >= d` and interpolated by ratio
`(d - cumulativeDistances[i-1]) / span` (returning `points[i]` when the
span is `0`); on the test path with cumulative distances `[0, 600, 1600]`
exactly one kilometer marker exists for total distance `1600`, and the
marker for distance `1000` falls at ratio `0.4` — not halfway — between
the 2nd and 3rd points. -/
theorem C5_marker_placement :
    (∀ (dist : NormPoint → NormPoint → JNum) (points : List PointInput)
      (cum : List JNum) (target : JNum) (i : ℕ),
      2 ≤ points.length → cum.length = points.length →
      JNum.jle target (fin 0) = false →
      1 ≤ i → i < cum.length →
      (∀ j, 1 ≤ j → j < i → JNum.jlt (cum.getD j nan) target = true) →
      JNum.jlt (cum.getD i nan) target = false →
      (∀ p ∈ points, (normalizeLatLng p).isSome = true) →
      getLatLngAtDistance dist points target cum =
        specInterpolateAt points cum i target) ∧
    updateKilometerMarkers constDist points3 (fin 1600) cum3 =
      [⟨fin 0, fin 10⟩] ∧
    (updateKilometerMarkers constDist points3 (fin 1600) cum3).length = 1 ∧
    (fin 10 : JNum) = fin (6 + (16 - 6) * ((1000 - 600) / (1600 - 600))) := by
  refine ⟨?_, ?_, ?_, by norm_num⟩
  · intro dist points cum target i hlen2 hlen hpos h1 hi hskip hstop hvalid
    obtain ⟨k, rfl⟩ : ∃ k, i = k + 1 := ⟨i - 1, by omega⟩
    cases points with
    | nil => simp at hlen2
    | cons p0 ptl =>
        cases cum with
        | nil => simp at hi
        | cons c0 ctl =>
            unfold getLatLngAtDistance
            rw [if_neg (by omega), if_pos hlen]
            simp only [hpos, Bool.false_eq_true, if_false]
            have hml := markerLoop_spec target k ctl ptl c0 p0
              (by simp at hi; omega)
              (by simpa using hlen)
              (fun j hj => by
                have := hskip (j + 1) (by omega) (by omega)
                simpa using this)
              (by simpa using hstop)
              (fun q hq => hvalid q (by simp [hq]))
              (hvalid p0 (by simp))
            rw [hml]
            have hsome : (interpAux ((c0 :: ctl).getD k nan)
                ((p0 :: ptl).getD k .pnull) (ctl.getD k nan)
                (ptl.getD k .pnull) target).isSome = true := by
              refine interpAux_isSome _ _ _ ?_ ?_
              · rcases k with _ | k2
                · exact hvalid p0 (by simp)
                · refine hvalid (ptl.getD k2 .pnull) ?_
                  have hk2 : k2 < ptl.length := by
                    simp at hi hlen
                    omega
                  have := List.getD_eq_getElem ptl .pnull hk2
                  rw [this]
                  exact List.mem_cons_of_mem _ (List.getElem_mem hk2)
              · refine hvalid (ptl.getD k .pnull) ?_
                have hk : k < ptl.length := by
                  simp at hi hlen
                  omega
                have := List.getD_eq_getElem ptl .pnull hk
                rw [this]
                exact List.mem_cons_of_mem _ (List.getElem_mem hk)
            cases hia : interpAux ((c0 :: ctl).getD k nan)
                ((p0 :: ptl).getD k .pnull) (ctl.getD k nan)
                (ptl.getD k .pnull) target with
            | none => rw [hia] at hsome; simp at hsome
            | some pos =>
                show some pos = specInterpolateAt (p0 :: ptl) (c0 :: ctl)
                  (k + 1) target
                rw [← hia]
                unfold specInterpolateAt
                simp only [Nat.add_sub_cancel, List.getD_cons_succ]
  · norm_num [updateKilometerMarkers, buildKmMarkers, kmCount,
      getLatLngAtDistance, markerLoop, interpAux, normalizeLatLng, toNumber,
      points3, cum3, constDist]
  · norm_num [updateKilometerMarkers, buildKmMarkers, kmCount,
      getLatLngAtDistance, markerLoop, interpAux, normalizeLatLng, toNumber,
      points3, cum3, constDist]

/-- Witness for the general placement rule of C5 at the test path, target
`1000`, found index `2`. -/
theorem C5_witness :
    getLatLngAtDistance constDist points3 (fin 1000) cum3 =
      specInterpolateAt points3 cum3 2 (fin 1000) := by
  refine C5_marker_placement.1 constDist points3 cum3 (fin 1000) 2
    (by norm_num [points3]) (by norm_num [points3, cum3])
    (by norm_num) (by norm_num) (by norm_num [cum3]) ?_ ?_ ?_
  · intro j h1 h2
    interval_cases j
    norm_num [cum3]
  · norm_num [cum3]
  · intro p hp
    simp only [points3, List.mem_cons, List.not_mem_nil, or_false] at hp
    rcases hp with rfl | rfl | rfl <;> rfl

/-- Counterexample to C5 as stated: the single kilometer marker on the test
path sits at longitude `10` (ratio `0.4` into the 2nd→3rd segment), which
is not the halfway point (longitude `11`) between the 2nd and 3rd points. -/
theorem C5_counterexample :
    getLatLngAtDistance constDist points3 (fin 1000) cum3 =
      some ⟨fin 0, fin 10⟩ ∧
    updateKilometerMarkers constDist points3 (fin 1600) cum3 =
      [⟨fin 0, fin 10⟩] ∧
    (⟨fin 0, fin 10⟩ : NormPoint) ≠ ⟨fin 0, fin ((6 + 16) / 2)⟩ := by
  refine ⟨?_, ?_, ?_⟩
  · norm_num [getLatLngAtDistance, markerLoop, interpAux, normalizeLatLng,
      toNumber, points3, cum3]
  · norm_num [updateKilometerMarkers, buildKmMarkers, kmCount,
      getLatLngAtDistance, markerLoop, interpAux, normalizeLatLng, toNumber,
      points3, cum3]
  · simp only [ne_eq, NormPoint.mk.injEq, JNum.fin.injEq]
    norm_num

theorem toNumber_jsOr_zero {v : JNum} (h : v ≠ nan) :
    toNumber (jsOr (.jnum v) (.jnum (fin 0))) = v := by
  cases v with
  | fin q =>
      by_cases hq : q = 0
      · subst hq; rfl
      · simp [jsOr, jsTruthy, JNum.truthy, hq, toNumber]
  | nan => exact absurd rfl h
  | inf => rfl
  | ninf => rfl

/-- C6 (amended): the `saveRoute` record construction is idempotent on
records in canonical storage form whose `name` is nonempty and whose
`distance` and `elevationGain` are not `NaN` (a `NaN` number is falsy, so
`route.distance || 0` re-normalizes it to `0`); and on the spec's concrete
test input it produces exactly the expected record. -/
theorem C6_persistence_normalization :
    (∀ (now : String) (d : RouteData),
      (∀ p ∈ d.points, ∃ a b, p = .parr [.jnum a, .jnum b]) →
      d.name ≠ "" → d.distance ≠ nan → d.elevationGain ≠ nan →
      saveRouteData now (toRouteIn d) = d) ∧
    saveRouteData "2099-01-01T00:00:00.000Z" testRoute = testExpected := by
  constructor
  · intro now d hpts hname hdist helev
    unfold saveRouteData toRouteIn
    have hps : d.points.map savePoint = d.points := by
      have : ∀ p ∈ d.points, savePoint p = p := by
        intro p hp
        obtain ⟨a, b, rfl⟩ := hpts p hp
        rfl
      calc d.points.map savePoint = d.points.map id :=
            List.map_congr_left this
        _ = d.points := List.map_id d.points
    have hnm : jsToString (jsOr (.jstr d.name) (.jstr "Unnamed Route")) =
        d.name := by
      simp [jsOr, jsTruthy, hname, jsToString]
    cases d with
    | mk id name points distance elevationGain created =>
        simp only at hps hnm hdist helev ⊢
        rw [hps, hnm, toNumber_jsOr_zero hdist, toNumber_jsOr_zero helev]
        rfl
  · norm_num +decide [saveRouteData, testRoute, testExpected, jsToString,
      jsOr, jsTruthy, JNum.truthy, qToString, toNumber, parseNumber, jsTrim,
      parseDecBody, digitsVal, digitVal, savePoint]

/-- Witness for the idempotence component of C6 on a concrete canonical
record. -/
theorem C6_witness :
    saveRouteData "2099-01-01T00:00:00.000Z" (toRouteIn testExpected) =
      testExpected :=
  C6_persistence_normalization.1 "2099-01-01T00:00:00.000Z" testExpected
    (by
      intro p hp
      simp only [testExpected, List.mem_cons, List.not_mem_nil, or_false]
        at hp
      rcases hp with rfl | rfl
      · exact ⟨fin 10, fin 20, rfl⟩
      · exact ⟨fin 11, fin 21, rfl⟩)
    (by simp [testExpected]) (by simp [testExpected]) (by simp [testExpected])

/-- Counterexample to C6 as stated: normalizing the canonical-form record
`nanRecord` again is not the identity — `NaN` is falsy, so
`Number(route.distance || 0)` turns the stored `NaN` distance into `0`. -/
theorem C6_counterexample :
    (∀ p ∈ nanRecord.points, ∃ a b, p = .parr [.jnum a, .jnum b]) ∧
    saveRouteData "now" (toRouteIn nanRecord) ≠ nanRecord ∧
    (saveRouteData "now" (toRouteIn nanRecord)).distance = fin 0 ∧
    nanRecord.distance = nan := by
  refine ⟨?_, ?_, rfl, rfl⟩
  · intro p hp
    simp only [nanRecord, List.mem_cons, List.not_mem_nil, or_false] at hp
    subst hp
    exact ⟨fin 0, fin 0, rfl⟩
  · intro h
    have := congrArg RouteData.distance h
    simp [nanRecord, saveRouteData, toRouteIn, jsOr, jsTruthy, JNum.truthy,
      toNumber] at this

/-- C7 (confirmed): export inverts `[lat, lng]` to `[lng, lat]` on every
point, import applies the reverse inversion, and — with the GPX⇄GeoJSON
conversion pair treated as mutually inverse pure functions — re-importing
an export reproduces the original point sequence exactly (tolerance `0`)
for every route whose stored points are two-entry arrays. -/
theorem C7_gpx_round_trip (G : Type) (enc : List GeoFeature → G)
    (dec : G → List GeoFeature) (hinv : ∀ g, dec (enc g) = g)
    (points : List PointInput)
    (hpts : ∀ p ∈ points, ∃ a b, p = .parr [a, b]) :
    importPoints (dec (enc (exportGeoJSON points))) = points := by
  rw [hinv]
  unfold importPoints exportGeoJSON
  simp only [List.flatMap_cons, List.flatMap_nil, List.append_nil,
    List.map_map]
  calc points.map (fun p => PointInput.parr
          [(exportCoord p).getD 1 .jundef, (exportCoord p).getD 0 .jundef])
      = points.map id := by
        apply List.map_congr_left
        intro p hp
        obtain ⟨a, b, rfl⟩ := hpts p hp
        rfl
    _ = points := List.map_id points

/-- C10 (confirmed): `formatDistance` agrees with the claimed formula on
every input (finite numbers clamped at `0` and rendered with two decimals,
everything non-finite or non-numeric displayed as `0.00 km`), is total (so
it never throws), and always displays the rendering of a non-negative
quantity. -/
theorem C10_formatDistance :
    (∀ v, formatDistance v = specFormatDistance v) ∧
    (∀ v, ∃ q : ℚ, 0 ≤ q ∧ formatDistance v = toFixed2 q ++ " km") ∧
    formatDistance (.jstr "abc") = "0.00 km" ∧
    formatDistance (.jnum inf) = "0.00 km" ∧
    formatDistance (.jnum (fin (-5000))) = "0.00 km" ∧
    formatDistance (.jnum (fin 1234)) = "1.23 km" := by
  have hzero : toFixed2 ((0 : ℚ) / 1000) ++ " km" = "0.00 km" := by
    norm_num [toFixed2]
    rfl
  have hspec : ∀ v, formatDistance v = specFormatDistance v := by
    intro v
    unfold formatDistance specFormatDistance
    cases toNumber v with
    | fin q => rfl
    | nan => exact hzero
    | inf => exact hzero
    | ninf => exact hzero
  refine ⟨hspec, ?_, ?_, ?_, ?_, ?_⟩
  · intro v
    unfold formatDistance
    cases toNumber v with
    | fin q =>
        exact ⟨max q 0 / 1000, by positivity, rfl⟩
    | nan => exact ⟨0 / 1000, by norm_num, rfl⟩
    | inf => exact ⟨0 / 1000, by norm_num, rfl⟩
    | ninf => exact ⟨0 / 1000, by norm_num, rfl⟩
  · rw [hspec]
    have habc : toNumber (.jstr "abc") = nan := by
      norm_num +decide [toNumber, parseNumber, jsTrim, parseDecBody,
        digitsVal, digitVal]
    unfold specFormatDistance
    rw [habc]
  · rw [hspec]; rfl
  · rw [hspec]
    show toFixed2 (max (-5000) 0 / 1000) ++ " km" = _
    have hm : (max (-5000 : ℚ) 0) = 0 := by norm_num
    rw [hm]
    exact hzero
  · rw [hspec]
    show toFixed2 (max 1234 0 / 1000) ++ " km" = _
    have hm : (max (1234 : ℚ) 0) = 1234 := by norm_num
    rw [hm]
    norm_num [toFixed2]
    rfl

theorem haversineDistance_eq_formula (s e : GeoPoint) :
    haversineDistance s e =
      2 * 6371000 * atan2 (Real.sqrt (havA s e))
        (Real.sqrt (1 - havA s e)) := by
  dsimp only [haversineDistance]
  have ha : Real.sin (toRadians (e.lat - s.lat) / 2) *
        Real.sin (toRadians (e.lat - s.lat) / 2) +
      Real.cos (toRadians s.lat) * Real.cos (toRadians e.lat) *
        Real.sin (toRadians (e.lng - s.lng) / 2) *
        Real.sin (toRadians (e.lng - s.lng) / 2) = havA s e := by
    unfold havA
    ring
  rw [ha]
  ring

/-- On the equator, one degree of longitude: the distance from `(0°, 0°)`
to `(0°, 1°)` is exactly `6371000 · π / 180` meters. -/
theorem haversine_one_degree :
    haversineDistance ⟨0, 0⟩ ⟨0, 1⟩ = 6371000 * (Real.pi / 180) := by
  have hpi := Real.pi_pos
  set x : ℝ := Real.pi / 360 with hxdef
  have hx0 : 0 < x := by positivity
  have hxlt : x < Real.pi / 2 := by
    rw [hxdef]
    nlinarith
  have hxle : x ≤ Real.pi := by nlinarith
  have hsin : 0 ≤ Real.sin x :=
    Real.sin_nonneg_of_nonneg_of_le_pi (le_of_lt hx0) hxle
  have hcos : 0 < Real.cos x :=
    Real.cos_pos_of_mem_Ioo ⟨by nlinarith, hxlt⟩
  dsimp only [haversineDistance, toRadians]
  simp only [sub_zero, zero_mul, zero_div, Real.sin_zero, Real.cos_zero,
    mul_zero, zero_add, one_mul, mul_one]
  have harg : Real.pi / 180 / 2 = x := by
    rw [hxdef]; ring
  rw [harg]
  have hsq : Real.sqrt (Real.sin x * Real.sin x) = Real.sin x :=
    Real.sqrt_mul_self hsin
  have hone : (1 : ℝ) - Real.sin x * Real.sin x = Real.cos x * Real.cos x := by
    have := Real.sin_sq_add_cos_sq x
    nlinarith
  have hsqc : Real.sqrt (Real.cos x * Real.cos x) = Real.cos x :=
    Real.sqrt_mul_self (le_of_lt hcos)
  rw [hsq, hone, hsqc]
  have hat : atan2 (Real.sin x) (Real.cos x) = x := by
    unfold atan2
    rw [if_pos hcos, ← Real.tan_eq_sin_div_cos,
      Real.arctan_tan (by nlinarith) hxlt]
  rw [hat, hxdef]
  ring

/-- C3 (confirmed): the reference segment distance is the haversine
great-circle distance in meters with Earth radius 6 371 000
(`a = sin²(Δlat/2) + cos·cos·sin²(Δlng/2)`,
`d = 2R·atan2(√a, √(1−a))`), and the distance between `(0°, 0°)` and
`(0°, 1°)` lies within `[111000, 112000]` meters. -/
theorem C3_haversine :
    (∀ s e, haversineDistance s e =
      2 * 6371000 * atan2 (Real.sqrt (havA s e))
        (Real.sqrt (1 - havA s e))) ∧
    111000 ≤ haversineDistance ⟨0, 0⟩ ⟨0, 1⟩ ∧
    haversineDistance ⟨0, 0⟩ ⟨0, 1⟩ ≤ 112000 := by
  refine ⟨haversineDistance_eq_formula, ?_, ?_⟩ <;>
    rw [haversine_one_degree]
  · nlinarith [Real.pi_gt_d6]
  · nlinarith [Real.pi_lt_d2]

/-- Witness for C7: a two-point route through the identity GPX pair. -/
theorem C7_witness :
    importPoints (id (id (exportGeoJSON
        [.parr [.jnum (fin 1), .jnum (fin 2)],
         .parr [.jnum (fin 3), .jnum (fin 4)]]))) =
      [.parr [.jnum (fin 1), .jnum (fin 2)],
       .parr [.jnum (fin 3), .jnum (fin 4)]] :=
  C7_gpx_round_trip (List GeoFeature) id id (fun _ => rfl) _
    (by
      intro p hp
      simp only [List.mem_cons, List.not_mem_nil, or_false] at hp
      rcases hp with rfl | rfl
      · exact ⟨.jnum (fin 1), .jnum (fin 2), rfl⟩
      · exact ⟨.jnum (fin 3), .jnum (fin 4), rfl⟩)
